import Mathlib

/-!
Verification of the synchronization core of the shielded-pool chart tool
(src/main.py) against its natural-language specification.

The embedding models the CSV file as a list of rows (the csv module's
line/field encoding is external), each row a list of field strings, and the
remote node as an oracle mapping each RPC to its outcome.  Pool values are
floating-point in the source; they are modelled as integers here because no
claim depends on float arithmetic, only on the write/read round trip of the
serialized value, which holds for both representations.
-/

/-! ## Decimal rendering and parsing (str and int of Python, on the strings
this program writes and reads) -/

def digitChar (d : Nat) : Char := Char.ofNat (48 + d)

/-- Digits of a number, most significant first, prepended to an accumulator.
Fuel-structured so that the kernel can evaluate it. -/
def digitsAux (fuel n : Nat) (acc : List Char) : List Char :=
  match fuel with
  | 0 => acc
  | f + 1 => if n = 0 then acc else digitsAux f (n / 10) (digitChar (n % 10) :: acc)

def natDigits (n : Nat) : List Char :=
  if n = 0 then [ '0' ] else digitsAux n n []

/-- Decimal rendering of a natural number, as produced by the str function of
Python on a non-negative int. -/
def renderNat (n : Nat) : String := String.mk (natDigits n)

/-- Decimal rendering of an integer, as produced by the str function of
Python on an int. -/
def renderInt (k : Int) : String :=
  if k < 0 then String.mk ( '-' :: natDigits (-k).toNat) else String.mk (natDigits k.toNat)

def pdCore : List Char → Nat → Option Nat
  | [], acc => some acc
  | c :: cs, acc => if c.isDigit then pdCore cs (acc * 10 + (c.toNat - 48)) else none

def parseDigits (l : List Char) : Option Nat :=
  match l with
  | [] => none
  | _ => pdCore l 0

/-- Model of the int constructor of Python applied to a field string read
back from the CSV: an optional minus sign followed by decimal digits
(whitespace and a plus sign never occur in the strings this program writes). -/
def parseIntChars : List Char → Option Int
  | [] => none
  | c :: rest =>
    if c = '-' then (parseDigits rest).map (fun n => -(n : Int))
    else (parseDigits (c :: rest)).map (fun n => (n : Int))

def parsePyInt (s : String) : Option Int := parseIntChars s.data

/-- Model of the float constructor of Python applied to a value field; values
are modelled as integers (see the module comment). -/
def parsePyFloat (s : String) : Option Int := parsePyInt s

/-- Number of digits produced by digitsAux, mirroring its recursion. -/
def ndig (fuel n : Nat) : Nat :=
  match fuel with
  | 0 => 0
  | f + 1 => if n = 0 then 0 else ndig f (n / 10) + 1

/-! ## Embedding of src/main.py -/

/-- Outcome of one RPC request, seen at the boundary of the requests library:
a 200 response with the expected payload shape carrying a value, a 200
response whose payload misses the expected keys, a non-success status, or a
transport failure (connection error or timeout) raised as an exception. -/
inductive RpcResult where
  | ok (v : Int)
  | okBad
  | httpError (status : Nat)
  | transport
deriving DecidableEq, Repr

/-- Oracle for the remote Zend node: the outcome of a getblock request at
each height, and the outcome of a getblockcount request. -/
structure Remote where
  getblock : Int → RpcResult
  getblockcount : RpcResult

/-- Python exceptions and process exits that the script can produce.
systemExit carries the exit code (none for the bare exit call on line 45,
some 0 for the quit call on line 130). -/
inductive PyError where
  | fileNotFound
  | indexError
  | valueError
  | keyError
  | typeError
  | stopIteration
  | transportError
  | zeroDivisionError
  | systemExit (code : Option Nat)
deriving DecidableEq, Repr


/-- Decidable equality on Except, so that concrete runs can be settled by
the decide tactic. -/
def exceptDecEq {e a : Type} [DecidableEq e] [DecidableEq a] :
    (x y : Except e a) → Decidable (x = y)
  | .error x, .error y =>
    if h : x = y then .isTrue (by rw [h]) else .isFalse (by simp [h])
  | .error _, .ok _ => .isFalse (by simp)
  | .ok _, .error _ => .isFalse (by simp)
  | .ok x, .ok y =>
    if h : x = y then .isTrue (by rw [h]) else .isFalse (by simp [h])

instance {e a : Type} [DecidableEq e] [DecidableEq a] : DecidableEq (Except e a) :=
  exceptDecEq

/-- Embedding of get_block_sprout_chain_value (src/main.py lines 27-45): on a
200 response it returns the nested chainValue; on a missing payload shape the
key lookup raises; on a non-success status it prints and calls exit; a
transport failure propagates as the requests exception. -/
def get_block_sprout_chain_value (remote : Remote) (block_height : Int) :
    Except PyError Int :=
  match remote.getblock block_height with
  | .ok v => .ok v
  | .okBad => .error .keyError
  | .httpError _ => .error (.systemExit none)
  | .transport => .error .transportError

/-- Embedding of get_last_block_from_zend (src/main.py lines 86-98): on a 200
response it returns the int of the result field; on a non-success status the
function falls off its end and returns None; errors propagate. -/
def get_last_block_from_zend (remote : Remote) : Except PyError (Option Int) :=
  match remote.getblockcount with
  | .ok v => .ok (some v)
  | .okBad => .error .keyError
  | .httpError _ => .ok none
  | .transport => .error .transportError

/-- One CSV record: the list of its field strings (the csv module encodes a
record per line; that line/field encoding is external to this program). -/
abbrev Row := List String

/-- Contents of the CSV file: the list of its rows, header first. -/
abbrev CsvContents := List Row

/-- State of the CSV file on disk: none when the file does not exist. -/
abbrev Fs := Option CsvContents

/-- Header row written on first run (src/main.py line 214). -/
def headerRow : Row := [ "BLOCK HEIGHT", "SHIELDED POOL VALUE" ]

/-- Parsing of one data row inside get_csv_data (src/main.py lines 66-68):
int of row at 0, float of row at 1; a missing field raises IndexError and an
unparsable field raises ValueError. -/
def parseRow (r : Row) : Except PyError (Int × Int) :=
  match r[0]? with
  | none => .error .indexError
  | some s0 =>
    match parsePyInt s0 with
    | none => .error .valueError
    | some h =>
      match r[1]? with
      | none => .error .indexError
      | some s1 =>
        match parsePyFloat s1 with
        | none => .error .valueError
        | some v => .ok (h, v)

/-- Row-by-row loop of get_csv_data: the first failing row aborts the load. -/
def parseRows : List Row → Except PyError (List Int × List Int)
  | [] => .ok ([], [])
  | r :: rs =>
    match parseRow r with
    | .error e => .error e
    | .ok (h, v) =>
      match parseRows rs with
      | .error e => .error e
      | .ok (hs, vs) => .ok (h :: hs, v :: vs)

/-- Embedding of get_csv_data (src/main.py lines 47-70): opens the file (a
missing file raises FileNotFoundError), skips the header (an empty file makes
next raise StopIteration), then parses every row into the two lists. -/
def get_csv_data (fs : Fs) : Except PyError (List Int × List Int) :=
  match fs with
  | none => .error .fileNotFound
  | some [] => .error .stopIteration
  | some (_ :: rows) => parseRows rows

/-- Embedding of get_last_block_from_csv (src/main.py lines 72-84): the last
element of the height list; indexing an empty list raises IndexError. -/
def get_last_block_from_csv (fs : Fs) : Except PyError Int :=
  match get_csv_data fs with
  | .error e => .error e
  | .ok (hs, _) =>
    match hs.getLast? with
    | none => .error .indexError
    | some h => .ok h

/-- How the fetch loop of update_csv_file ended. -/
inductive LoopExit where
  | completed
  | interrupted
  | errored (e : PyError)
deriving DecidableEq, Repr

/-- Embedding of the fetch loop of update_csv_file (src/main.py lines
112-121).  The cooperative interrupt signal is modelled as the number of
completed iterations after which KeyboardInterrupt is delivered at the loop
boundary (none when no interrupt arrives); cnt is the number of iterations
left, i the current height, j the number of iterations completed so far and
acc the accumulated buffer.  The progress print on line 118 runs when the
height is a multiple of 10000 and computes i * 100 // end_height, which
raises ZeroDivisionError when end_height is 0; that exception, like every
exception other than KeyboardInterrupt, escapes the try block. -/
def fetchLoop (remote : Remote) (interrupt : Option Nat) (endHeight : Int) :
    Int → Nat → Nat → List (Int × Int) → List (Int × Int) × LoopExit
  | _, 0, _, acc => (acc, .completed)
  | i, cnt + 1, j, acc =>
    if interrupt = some j then (acc, .interrupted)
    else
      match get_block_sprout_chain_value remote i with
      | .error e => (acc, .errored e)
      | .ok v =>
        let acc2 := acc ++ [(i, v)]
        if i % 10000 = 0 ∧ endHeight = 0 then (acc2, .errored .zeroDivisionError)
        else fetchLoop remote interrupt endHeight (i + 1) cnt (j + 1) acc2

/-- CSV row written for one entry by csv.writer (src/main.py line 127). -/
def entryRow (h v : Int) : Row := [renderInt h, renderInt v]

/-- Embedding of the flush of update_csv_file (src/main.py lines 123-127):
open in append mode (creating an empty file when none exists) and write one
row per buffered entry at the end. -/
def append_rows (fs : Fs) (data : List (Int × Int)) : Fs :=
  some ((fs.getD []) ++ data.map (fun p => entryRow p.1 p.2))

/-- Embedding of update_csv_file (src/main.py lines 100-130): run the fetch
loop over the inclusive range, then flush the buffer and, after an interrupt,
quit with code 0.  An exception other than KeyboardInterrupt escapes the try
block before the flush, so the buffer is dropped and the file is unchanged. -/
def update_csv_file (remote : Remote) (interrupt : Option Nat) (fs : Fs)
    (start_height end_height : Int) : Fs × Except PyError Unit :=
  match fetchLoop remote interrupt end_height start_height
      (end_height + 1 - start_height).toNat 0 [] with
  | (data, .completed) => (append_rows fs data, .ok ())
  | (data, .interrupted) => (append_rows fs data, .error (.systemExit (some 0)))
  | (_, .errored e) => (fs, .error e)

/-- Anomaly scan of verify_csv_file (src/main.py lines 143-145): one report
per adjacent pair violating contiguity, as (offending height, previous
height), mirroring the printed message. -/
def anomaliesFrom (prev : Int) : List Int → List (Int × Int)
  | [] => []
  | b :: bs =>
    if b ≠ prev + 1 then (b, prev) :: anomaliesFrom b bs else anomaliesFrom b bs

/-- Anomalies over the whole height list (loop index starts at 1). -/
def verify_anomalies (blocks : List Int) : List (Int × Int) :=
  match blocks with
  | [] => []
  | b :: bs => anomaliesFrom b bs

/-- Embedding of verify_csv_file (src/main.py lines 132-145): load the store
and report every contiguity violation. -/
def verify_csv_file (fs : Fs) : Except PyError (List (Int × Int)) :=
  match get_csv_data fs with
  | .error e => .error e
  | .ok (blocks, _) => .ok (verify_anomalies blocks)

/-- Embedding of main's resolution of the last stored height (src/main.py
lines 210-218): a missing file is created with the header row and treated as
height -1; an IndexError (empty store, or any row missing a field) is also
treated as height -1; any other load error propagates. -/
def resolveLast (fs : Fs) : Fs × Except PyError Int :=
  match get_last_block_from_csv fs with
  | .ok l => (fs, .ok l)
  | .error .fileNotFound => (some [headerRow], .ok (-1))
  | .error .indexError => (fs, .ok (-1))
  | .error e => (fs, .error e)

/-- Embedding of the synchronization path of main (src/main.py lines
196-231) with the update branch taken: resolve the last stored height, ask
the node for the tip, and update when behind.  Comparing an int with the
None returned by get_last_block_from_zend on a non-success status raises
TypeError.  Chart rendering, which only reads the file, is omitted. -/
def mainSync (remote : Remote) (interrupt : Option Nat) (fs : Fs) :
    Fs × Except PyError Unit :=
  match resolveLast fs with
  | (fs1, .error e) => (fs1, .error e)
  | (fs1, .ok last_checked) =>
    match get_last_block_from_zend remote with
    | .error e => (fs1, .error e)
    | .ok none => (fs1, .error .typeError)
    | .ok (some tip) =>
      if last_checked < tip then
        update_csv_file remote interrupt fs1 (last_checked + 1) tip
      else (fs1, .ok ())

/-! ## Helper constructions for the statements -/

/-- Remote node on which every request succeeds: the value at height h is
f h and the reported chain tip is tip. -/
def mkRemote (f : Int → Int) (tip : Nat) : Remote :=
  { getblock := fun h => .ok (f h), getblockcount := .ok (tip : Int) }

/-- Consecutive heights s, s+1, ..., s+n-1. -/
def heightsFrom (s : Int) : Nat → List Int
  | 0 => []
  | n + 1 => s :: heightsFrom (s + 1) n

/-- Values f s, f (s+1), ..., f (s+n-1). -/
def valsIn (f : Int → Int) (s : Int) : Nat → List Int
  | 0 => []
  | n + 1 => f s :: valsIn f (s + 1) n

/-- Store rows for consecutive heights starting at s with the given values. -/
def rowsFrom (s : Int) : List Int → List Row
  | [] => []
  | v :: vs => entryRow s v :: rowsFrom (s + 1) vs

/-- Well-formed store: header row, then one entry per height 0, 1, ... with
the given values. -/
def mkStore (vals : List Int) : Fs := some (headerRow :: rowsFrom 0 vals)


/-- Remote value used in the concrete runs below. -/
def fconst : Int → Int := fun _ => 3

/-- Remote node whose first getblock call (height 0) succeeds with value 5
and whose second call (height 1) fails at the transport layer; the reported
tip is 1, so a run from an empty store plans exactly two calls. -/
def remoteFailSecond : Remote :=
  { getblock := fun h => if h = 0 then .ok 5 else .transport, getblockcount := .ok 1 }

/-- Remote node failing every request at the transport layer. -/
def remoteTransport : Remote :=
  { getblock := fun _ => .transport, getblockcount := .transport }

/-- Remote node answering every request with a 200 response whose payload
misses the expected shape. -/
def remoteBadPayload : Remote :=
  { getblock := fun _ => .okBad, getblockcount := .okBad }

/-- Remote node answering every request with the given non-success status. -/
def remoteHttp (s : Nat) : Remote :=
  { getblock := fun _ => .httpError s, getblockcount := .httpError s }

/-- Store whose single data row has a height field but no value field, as in
a file truncated mid-row. -/
def corruptShortRowStore : Fs := some [headerRow, [renderInt 5]]

/-- Store whose single data row has a non-numeric height field. -/
def corruptBadFieldStore : Fs := some [headerRow, [String.mk [ 'x' ], renderInt 1]]

/-! ### Round-trip lemmas for the decimal codec -/

theorem digitChar_isDigit (d : Nat) (h : d < 10) : (digitChar d).isDigit = true := by
  interval_cases d <;> decide

theorem digitChar_toNat (d : Nat) (h : d < 10) : (digitChar d).toNat - 48 = d := by
  interval_cases d <;> decide

theorem digitChar_ne_minus (d : Nat) (h : d < 10) : digitChar d ≠ '-' := by
  interval_cases d <;> decide

theorem pdCore_digitsAux (fuel : Nat) :
    ∀ n l a, n ≤ fuel →
      pdCore (digitsAux fuel n l) a = pdCore l (a * 10 ^ ndig fuel n + n) := by
  induction fuel with
  | zero =>
    intro n l a h
    interval_cases n
    simp [digitsAux, ndig]
  | succ f ih =>
    intro n l a h
    by_cases hn : n = 0
    · subst hn; simp [digitsAux, ndig]
    · have hd : n % 10 < 10 := Nat.mod_lt _ (by norm_num)
      have h10 : n / 10 ≤ f := by
        have := Nat.div_lt_self (Nat.pos_of_ne_zero hn) (by norm_num : 1 < 10)
        omega
      simp only [digitsAux, ndig, if_neg hn]
      rw [ih (n / 10) _ a h10]
      simp only [pdCore, digitChar_isDigit _ hd, if_pos]
      rw [digitChar_toNat _ hd]
      congr 1
      calc (a * 10 ^ ndig f (n / 10) + n / 10) * 10 + n % 10
          = a * (10 ^ ndig f (n / 10) * 10) + (10 * (n / 10) + n % 10) := by ring
        _ = a * 10 ^ (ndig f (n / 10) + 1) + n := by rw [Nat.div_add_mod, pow_succ]

theorem digitsAux_length (fuel : Nat) :
    ∀ n l, l.length ≤ (digitsAux fuel n l).length := by
  induction fuel with
  | zero => intro n l; simp [digitsAux]
  | succ f ih =>
    intro n l
    by_cases hn : n = 0
    · simp [digitsAux, hn]
    · simp only [digitsAux, if_neg hn]
      calc l.length ≤ (digitChar (n % 10) :: l).length := by simp
        _ ≤ _ := ih (n / 10) _

theorem digitsAux_shape (fuel : Nat) :
    ∀ n l, digitsAux fuel n l = l ∨
      ∃ d t, d < 10 ∧ digitsAux fuel n l = digitChar d :: t := by
  induction fuel with
  | zero => intro n l; left; rfl
  | succ f ih =>
    intro n l
    by_cases hn : n = 0
    · left; simp [digitsAux, hn]
    · simp only [digitsAux, if_neg hn]
      rcases ih (n / 10) (digitChar (n % 10) :: l) with h | ⟨d, t, hd, ht⟩
      · right
        exact ⟨n % 10, l, Nat.mod_lt _ (by norm_num), h⟩
      · right; exact ⟨d, t, hd, ht⟩

theorem natDigits_head (n : Nat) :
    ∃ d t, d < 10 ∧ natDigits n = digitChar d :: t := by
  unfold natDigits
  by_cases hn : n = 0
  · refine ⟨0, [], by norm_num, ?_⟩
    simp [hn]
    decide
  · simp only [if_neg hn]
    rcases digitsAux_shape n n [] with h | ⟨d, t, hd, ht⟩
    · exfalso
      rcases Nat.exists_eq_succ_of_ne_zero hn with ⟨m, rfl⟩
      have hlen := digitsAux_length m ((m + 1) / 10) (digitChar ((m + 1) % 10) :: [])
      simp only [digitsAux, if_neg hn] at h
      rw [h] at hlen
      simp at hlen
    · exact ⟨d, t, hd, ht⟩

theorem natDigits_ne_nil (n : Nat) : natDigits n ≠ [] := by
  rcases natDigits_head n with ⟨d, t, _, h⟩
  simp [h]

theorem parseDigits_natDigits (n : Nat) : parseDigits (natDigits n) = some n := by
  by_cases hn : n = 0
  · subst hn; decide
  · have hne := natDigits_ne_nil n
    have hcore : pdCore (natDigits n) 0 = some n := by
      unfold natDigits
      simp only [if_neg hn]
      rw [pdCore_digitsAux n n [] 0 (le_refl n)]
      simp [pdCore]
    unfold parseDigits
    rw [hcore]
    split
    · next heq => exact absurd heq hne
    · rfl

theorem parsePyInt_renderInt (k : Int) : parsePyInt (renderInt k) = some k := by
  unfold parsePyInt renderInt
  by_cases hk : k < 0
  · simp only [if_pos hk]
    show parseIntChars ( '-' :: natDigits (-k).toNat) = some k
    simp [parseIntChars, parseDigits_natDigits,
      Int.toNat_of_nonneg (by omega : (0 : Int) ≤ -k)]
  · simp only [if_neg hk]
    show parseIntChars (natDigits k.toNat) = some k
    rcases natDigits_head k.toNat with ⟨d, t, hd, hh⟩
    rw [hh]
    simp only [parseIntChars, if_neg (digitChar_ne_minus d hd), ← hh,
      parseDigits_natDigits]
    simp [Int.toNat_of_nonneg (by omega : (0 : Int) ≤ k)]

theorem parseRow_entryRow (h v : Int) : parseRow (entryRow h v) = .ok (h, v) := by
  simp [parseRow, entryRow, parsePyFloat, parsePyInt_renderInt]

theorem parseRows_rowsFrom (vals : List Int) :
    ∀ s : Int, parseRows (rowsFrom s vals) = .ok (heightsFrom s vals.length, vals) := by
  induction vals with
  | nil => intro s; simp [rowsFrom, parseRows, heightsFrom]
  | cons v vs ih =>
    intro s
    simp [rowsFrom, parseRows, parseRow_entryRow, ih (s + 1), heightsFrom]

theorem get_csv_data_rowsFrom (vals : List Int) (s : Int) :
    get_csv_data (some (headerRow :: rowsFrom s vals))
      = .ok (heightsFrom s vals.length, vals) := by
  simp [get_csv_data, parseRows_rowsFrom]

theorem get_csv_data_mkStore (vals : List Int) :
    get_csv_data (mkStore vals) = .ok (heightsFrom 0 vals.length, vals) :=
  get_csv_data_rowsFrom vals 0

theorem getLast_heightsFrom (n : Nat) :
    ∀ s : Int, 0 < n → (heightsFrom s n).getLast? = some (s + n - 1) := by
  induction n with
  | zero => intro s h; omega
  | succ m ih =>
    intro s _
    match m, ih with
    | 0, _ => simp [heightsFrom]
    | k + 1, ih =>
      have htail : heightsFrom (s + 1) (k + 1) = (s + 1) :: heightsFrom (s + 1 + 1) k := rfl
      calc (heightsFrom s (k + 1 + 1)).getLast?
          = (heightsFrom (s + 1) (k + 1)).getLast? := by
            rw [show heightsFrom s (k + 1 + 1) = s :: heightsFrom (s + 1) (k + 1) from rfl,
              htail, List.getLast?_cons_cons, ← htail]
        _ = some (s + 1 + (k + 1) - 1) := ih (s + 1) (by omega)
        _ = some (s + (k + 1 + 1 : Nat) - 1) := by push_cast; ring_nf

theorem resolveLast_mkStore (vals : List Int) :
    resolveLast (mkStore vals) = (mkStore vals, .ok ((vals.length : Int) - 1)) := by
  unfold resolveLast get_last_block_from_csv
  rw [get_csv_data_mkStore]
  rcases vals with _ | ⟨v, vs⟩
  · simp [heightsFrom]
  · have hlast := getLast_heightsFrom (v :: vs).length 0 (by simp)
    simp only [List.length_cons] at hlast
    rw [show (0 : Int) + ((vs.length + 1 : Nat) : Int) - 1
        = (vs.length : Int) by push_cast; ring] at hlast
    simp [hlast]

/-! ## Fetch-loop lemmas -/

theorem get_block_mkRemote (f : Int → Int) (T : Nat) (i : Int) :
    get_block_sprout_chain_value (mkRemote f T) i = .ok (f i) := rfl

theorem fetchLoop_run (f : Int → Int) (T : Nat) (e : Int) (he : e ≠ 0)
    (cnt : Nat) :
    ∀ (i : Int) (j : Nat) (acc : List (Int × Int)),
      fetchLoop (mkRemote f T) none e i cnt j acc
        = (acc ++ (heightsFrom i cnt).map (fun h => (h, f h)), .completed) := by
  induction cnt with
  | zero => intro i j acc; simp [fetchLoop, heightsFrom]
  | succ c ih =>
    intro i j acc
    simp only [fetchLoop, get_block_mkRemote]
    rw [if_neg (by simp)]
    rw [if_neg (by simp [he])]
    rw [ih (i + 1) (j + 1) (acc ++ [(i, f i)])]
    simp [heightsFrom]

theorem fetchLoop_now (remote : Remote) (e i : Int) (cnt N : Nat)
    (acc : List (Int × Int)) :
    fetchLoop remote (some N) e i (cnt + 1) N acc = (acc, .interrupted) := by
  simp [fetchLoop]

theorem fetchLoop_intr (f : Int → Int) (T : Nat) (e : Int) (he : e ≠ 0) (N : Nat)
    (cnt : Nat) :
    ∀ (j : Nat), j ≤ N → N < j + cnt →
      ∀ (i : Int) (acc : List (Int × Int)),
        fetchLoop (mkRemote f T) (some N) e i cnt j acc
          = (acc ++ (heightsFrom i (N - j)).map (fun h => (h, f h)), .interrupted) := by
  induction cnt with
  | zero => intro j hj hlt; omega
  | succ c ih =>
    intro j hj hlt i acc
    by_cases hje : j = N
    · subst hje
      rw [(by omega : j - j = 0)]
      simp [fetchLoop, heightsFrom]
    · have hjN : j < N := by omega
      simp only [fetchLoop, get_block_mkRemote]
      rw [if_neg (by simp; omega)]
      rw [if_neg (by simp [he])]
      rw [ih (j + 1) (by omega) (by omega) (i + 1) (acc ++ [(i, f i)])]
      rw [(by omega : N - j = (N - (j + 1)) + 1)]
      simp [heightsFrom]

theorem mem_heightsFrom (n : Nat) :
    ∀ (s h : Int), h ∈ heightsFrom s n → s ≤ h := by
  induction n with
  | zero => intro s h hm; simp [heightsFrom] at hm
  | succ c ih =>
    intro s h hm
    simp only [heightsFrom, List.mem_cons] at hm
    rcases hm with rfl | hm
    · omega
    · have := ih (s + 1) h hm
      omega

theorem fetchLoop_completed_shape (remote : Remote) (interrupt : Option Nat)
    (e : Int) (cnt : Nat) :
    ∀ (i : Int) (j : Nat) (acc data : List (Int × Int)),
      fetchLoop remote interrupt e i cnt j acc = (data, .completed) →
      ∃ g : Int → Int, data = acc ++ (heightsFrom i cnt).map (fun h => (h, g h)) := by
  induction cnt with
  | zero =>
    intro i j acc data hrun
    refine ⟨fun _ => 0, ?_⟩
    simp only [fetchLoop, Prod.mk.injEq] at hrun
    simp [heightsFrom, ← hrun.1]
  | succ c ih =>
    intro i j acc data hrun
    simp only [fetchLoop] at hrun
    split at hrun
    · simp at hrun
    · split at hrun
      · simp at hrun
      · rename_i v heq
        split at hrun
        · simp at hrun
        · rcases ih (i + 1) (j + 1) (acc ++ [(i, v)]) data hrun with ⟨g, hg⟩
          refine ⟨fun h => if h = i then v else g h, ?_⟩
          rw [hg]
          have hmap : (heightsFrom (i + 1) c).map
                (fun h => (h, if h = i then v else g h))
              = (heightsFrom (i + 1) c).map (fun h => (h, g h)) := by
            apply List.map_congr_left
            intro a ha
            have : i + 1 ≤ a := mem_heightsFrom c (i + 1) a ha
            rw [if_neg (by omega)]
          simp [heightsFrom, hmap]

/-! ## Flush and verification lemmas -/

theorem rowsOf_heights (g : Int → Int) (n : Nat) :
    ∀ s : Int,
      ((heightsFrom s n).map (fun h => (h, g h))).map (fun p => entryRow p.1 p.2)
        = rowsFrom s (valsIn g s n) := by
  induction n with
  | zero => intro s; simp [heightsFrom, valsIn, rowsFrom]
  | succ c ih => intro s; simp [heightsFrom, valsIn, rowsFrom, ih (s + 1)]

theorem valsIn_length (g : Int → Int) (n : Nat) :
    ∀ s : Int, (valsIn g s n).length = n := by
  induction n with
  | zero => intro s; simp [valsIn]
  | succ c ih => intro s; simp [valsIn, ih (s + 1)]

theorem rowsFrom_append (v2 : List Int) :
    ∀ (v1 : List Int) (s : Int),
      rowsFrom s (v1 ++ v2) = rowsFrom s v1 ++ rowsFrom (s + v1.length) v2 := by
  intro v1
  induction v1 with
  | nil => intro s; simp [rowsFrom]
  | cons v vs ih =>
    intro s
    simp only [List.cons_append, rowsFrom, List.length_cons, List.append_eq]
    rw [show s + ((vs.length + 1 : Nat) : Int) = s + 1 + (vs.length : Int) by push_cast; ring]
    rw [ih (s + 1)]

theorem append_rows_mkStore (vals : List Int) (g : Int → Int) (n : Nat) :
    append_rows (mkStore vals) ((heightsFrom (vals.length : Int) n).map (fun h => (h, g h)))
      = mkStore (vals ++ valsIn g (vals.length : Int) n) := by
  simp only [append_rows, mkStore, Option.getD_some, rowsOf_heights]
  rw [rowsFrom_append]
  simp

theorem anomaliesFrom_heights (n : Nat) :
    ∀ s : Int, anomaliesFrom s (heightsFrom (s + 1) n) = [] := by
  induction n with
  | zero => intro s; simp [heightsFrom, anomaliesFrom]
  | succ c ih =>
    intro s
    simp only [heightsFrom, anomaliesFrom, if_neg (by omega : ¬s + 1 ≠ s + 1)]
    exact ih (s + 1)

theorem verify_anomalies_heightsFrom (n : Nat) (s : Int) :
    verify_anomalies (heightsFrom s n) = [] := by
  rcases n with _ | m
  · simp [heightsFrom, verify_anomalies]
  · simp only [heightsFrom, verify_anomalies]
    exact anomaliesFrom_heights m s

theorem verify_mkStore (vals : List Int) : verify_csv_file (mkStore vals) = .ok [] := by
  simp [verify_csv_file, get_csv_data_mkStore, verify_anomalies_heightsFrom]

/-! ## Behavior of the entry point on a well-formed store and healthy node -/

theorem get_tip_mkRemote (f : Int → Int) (T : Nat) :
    get_last_block_from_zend (mkRemote f T) = .ok (some (T : Int)) := rfl

theorem mainSync_good (f : Int → Int) (T : Nat) (hT : 0 < T) (vals : List Int)
    (hle : vals.length ≤ T) :
    mainSync (mkRemote f T) none (mkStore vals)
      = (mkStore (vals ++ valsIn f (vals.length : Int) (T + 1 - vals.length)), .ok ()) := by
  simp only [mainSync, resolveLast_mkStore, get_tip_mkRemote]
  rw [if_pos (by omega)]
  simp only [update_csv_file]
  rw [show (vals.length : Int) - 1 + 1 = (vals.length : Int) by ring]
  rw [show ((T : Int) + 1 - (vals.length : Int)).toNat = T + 1 - vals.length by omega]
  rw [fetchLoop_run f T (T : Int) (by omega : (T : Int) ≠ 0)]
  simp only [List.nil_append]
  rw [append_rows_mkStore]

theorem mainSync_current (f : Int → Int) (T : Nat) (intr : Option Nat)
    (vals : List Int) (hlen : vals.length = T + 1) :
    mainSync (mkRemote f T) intr (mkStore vals) = (mkStore vals, .ok ()) := by
  simp only [mainSync, resolveLast_mkStore, get_tip_mkRemote]
  rw [if_neg (by rw [hlen]; omega)]

/-! ## Claim-specific helper lemmas -/

theorem append_rows_empty (g : Int → Int) (n : Nat) :
    append_rows (mkStore []) ((heightsFrom 0 n).map (fun h => (h, g h)))
      = mkStore (valsIn g 0 n) := by
  have h := append_rows_mkStore [] g n
  simpa using h

theorem parseRows_entryRows (es : List (Int × Int)) :
    parseRows (es.map (fun p => entryRow p.1 p.2))
      = .ok (es.map Prod.fst, es.map Prod.snd) := by
  induction es with
  | nil => simp [parseRows]
  | cons p ps ih => simp [parseRows, parseRow_entryRow, ih]

/-! ## Claims -/

/-- Claim C1, counterexample: the remote fails at the transport layer on the
second call of a non-cancelling run from an initialized empty store.  The
claim says the store then holds the one entry fetched before the failure;
in fact the try block around the fetch loop catches only KeyboardInterrupt,
so the exception skips the flush: the store is unchanged (zero entries, not
one), although the error does reach the caller. -/
theorem C1_cex :
    mainSync remoteFailSecond none (some [headerRow])
      = (some [headerRow], .error .transportError)
  ∧ get_csv_data (mainSync remoteFailSecond none (some [headerRow])).1 ≠ .ok ([0], [5]) := by
  decide

/-- Claim C1, amended: when a getValueAtHeight call of a run fails (transport
error, missing payload shape, or the process exit on a non-success status,
and likewise the division by zero of the progress report), update_csv_file
returns with the store exactly as it was - the accumulated buffer is
discarded, not flushed - and the error is surfaced to the caller. -/
theorem C1_thm (remote : Remote) (intr : Option Nat) (fs : Fs) (s e : Int)
    (data : List (Int × Int)) (err : PyError)
    (hrun : fetchLoop remote intr e s (e + 1 - s).toNat 0 [] = (data, .errored err)) :
    update_csv_file remote intr fs s e = (fs, .error err) := by
  simp only [update_csv_file, hrun]

/-- Witness for C1_thm at the concrete failing remote of C1_cex. -/
theorem C1_witness :
    fetchLoop remoteFailSecond none 1 0 ((1 : Int) + 1 - 0).toNat 0 []
      = ([(0, 5)], .errored .transportError)
  ∧ update_csv_file remoteFailSecond none (some [headerRow]) 0 1
      = (some [headerRow], .error .transportError) :=
  ⟨by decide,
   C1_thm remoteFailSecond none (some [headerRow]) 0 1 [(0, 5)] .transportError (by decide)⟩

/-- Claim C2: when a run from an initialized empty store against a healthy
node with tip T is interrupted at the loop boundary after N of the T+1
planned heights have been fetched, the store afterward holds exactly the
first N entries, heights 0 to N-1 contiguous, and the run exits via quit(0)
after the flush; a subsequent uninterrupted run completes the store to
heights 0 to T, that is, it resumes at height N and appends exactly heights
N to T with no gap and no overlap. -/
theorem C2_thm (f : Int → Int) (T N : Nat) (hN : N < T + 1) :
    mainSync (mkRemote f T) (some N) (mkStore [])
      = (mkStore (valsIn f 0 N), .error (.systemExit (some 0)))
  ∧ (1 ≤ T → mainSync (mkRemote f T) none (mkStore (valsIn f 0 N))
      = (mkStore (valsIn f 0 N ++ valsIn f (N : Int) (T + 1 - N)), .ok ())) := by
  constructor
  · by_cases hT : T = 0
    · subst hT
      have hN0 : N = 0 := by omega
      subst hN0
      simp only [mainSync, resolveLast_mkStore, get_tip_mkRemote, List.length_nil,
        Nat.cast_zero]
      rw [if_pos (by omega)]
      simp only [update_csv_file]
      rw [show ((0 : Int) + 1 - ((0 : Int) - 1 + 1)).toNat = 0 + 1 by simp]
      rw [show (0 : Int) - 1 + 1 = 0 by ring]
      rw [fetchLoop_now]
      simp [append_rows, mkStore, valsIn, rowsFrom]
    · simp only [mainSync, resolveLast_mkStore, get_tip_mkRemote, List.length_nil,
        Nat.cast_zero]
      rw [if_pos (by omega)]
      simp only [update_csv_file]
      rw [show (0 : Int) - 1 + 1 = 0 by ring]
      rw [show ((T : Int) + 1 - 0).toNat = T + 1 by omega]
      rw [fetchLoop_intr f T (T : Int) (by omega) N (T + 1) 0 (by omega) (by omega) 0 []]
      simp only [List.nil_append, Nat.sub_zero]
      rw [append_rows_empty]
  · intro hT
    have hlen := valsIn_length f N 0
    have hg := mainSync_good f T (by omega) (valsIn f 0 N) (by rw [hlen]; omega)
    rw [hg, hlen]

/-- Witness for C2_thm: tip 2, interrupt after 1 of 3 planned heights. -/
theorem C2_witness :
    mainSync (mkRemote fconst 2) (some 1) (mkStore [])
      = (mkStore (valsIn fconst 0 1), .error (.systemExit (some 0)))
  ∧ mainSync (mkRemote fconst 2) none (mkStore (valsIn fconst 0 1))
      = (mkStore (valsIn fconst 0 1 ++ valsIn fconst ((1 : Nat) : Int) (2 + 1 - 1)), .ok ()) :=
  ⟨(C2_thm fconst 2 1 (by omega)).1, (C2_thm fconst 2 1 (by omega)).2 (by omega)⟩

/-- Claim C3: starting from any store whose heights are a contiguous
ascending run from 0, whenever a synchronize run returns success - whatever
the remote does and whether or not an interrupt was pending - the resulting
store still satisfies the invariant: verify reports no anomaly on it. -/
theorem C3_thm (remote : Remote) (intr : Option Nat) (vals : List Int)
    (hok : (mainSync remote intr (mkStore vals)).2 = .ok ()) :
    verify_csv_file (mainSync remote intr (mkStore vals)).1 = .ok [] := by
  rcases hz : remote.getblockcount with v | _ | st | _
  · have hzend : get_last_block_from_zend remote = .ok (some v) := by
      simp [get_last_block_from_zend, hz]
    by_cases hcmp : (vals.length : Int) - 1 < v
    · have hmain : mainSync remote intr (mkStore vals)
          = update_csv_file remote intr (mkStore vals) ((vals.length : Int) - 1 + 1) v := by
        simp only [mainSync, resolveLast_mkStore, hzend]
        rw [if_pos hcmp]
      rw [hmain] at hok ⊢
      rcases hfl : fetchLoop remote intr v ((vals.length : Int) - 1 + 1)
          (v + 1 - ((vals.length : Int) - 1 + 1)).toNat 0 [] with ⟨data, ex⟩
      rcases ex with _ | _ | e0
      · have hupd : update_csv_file remote intr (mkStore vals)
            ((vals.length : Int) - 1 + 1) v = (append_rows (mkStore vals) data, .ok ()) := by
          simp only [update_csv_file, hfl]
        rw [hupd]
        rcases fetchLoop_completed_shape remote intr v _ _ _ _ _ hfl with ⟨g, hg⟩
        simp only [List.nil_append] at hg
        show verify_csv_file (append_rows (mkStore vals) data) = .ok []
        rw [hg]
        rw [show (vals.length : Int) - 1 + 1 = (vals.length : Int) by ring]
        rw [append_rows_mkStore]
        exact verify_mkStore _
      · simp only [update_csv_file, hfl] at hok
        simp at hok
      · simp only [update_csv_file, hfl] at hok
        simp at hok
    · have hmain : mainSync remote intr (mkStore vals) = (mkStore vals, .ok ()) := by
        simp only [mainSync, resolveLast_mkStore, hzend]
        rw [if_neg hcmp]
      rw [hmain]
      exact verify_mkStore vals
  · have hzend : get_last_block_from_zend remote = .error .keyError := by
      simp [get_last_block_from_zend, hz]
    simp only [mainSync, resolveLast_mkStore, hzend] at hok
    simp at hok
  · have hzend : get_last_block_from_zend remote = .ok none := by
      simp [get_last_block_from_zend, hz]
    simp only [mainSync, resolveLast_mkStore, hzend] at hok
    simp at hok
  · have hzend : get_last_block_from_zend remote = .error .transportError := by
      simp [get_last_block_from_zend, hz]
    simp only [mainSync, resolveLast_mkStore, hzend] at hok
    simp at hok

/-- Witness for C3_thm: a successful run from the empty store at tip 2. -/
theorem C3_witness :
    (mainSync (mkRemote fconst 2) none (mkStore [])).2 = .ok ()
  ∧ verify_csv_file (mainSync (mkRemote fconst 2) none (mkStore [])).1 = .ok [] :=
  ⟨by decide, C3_thm (mkRemote fconst 2) none [] (by decide)⟩

/-- Claim C4, code bug at tip 0: synchronizing an absent store against a
node whose tip is 0 fetches height 0 successfully, then the progress report
on line 118 computes 0 * 100 // 0 and raises ZeroDivisionError, which skips
the flush; the run dies with only the header written (an empty series, not
the one entry the claim requires).  With tip 1 the same run behaves as the
claim describes, producing entries at heights 0 and 1. -/
theorem C4_thm :
    mainSync (mkRemote fconst 0) none none
      = (some [headerRow], .error .zeroDivisionError)
  ∧ get_csv_data (mainSync (mkRemote fconst 0) none none).1 = .ok ([], [])
  ∧ mainSync (mkRemote fconst 1) none none = (mkStore (valsIn fconst 0 2), .ok ()) :=
  ⟨by decide, by decide, by decide⟩

/-- Claim C5: with the store already holding heights 0 to T and the tip
unchanged at T, a new run appends nothing and succeeds, for any pending
interrupt; with the tip advanced to T2 greater than T, a new run appends
exactly heights T+1 to T2 and succeeds. -/
theorem C5_thm (f : Int → Int) (T : Nat) (intr : Option Nat) (vals : List Int)
    (hlen : vals.length = T + 1) :
    mainSync (mkRemote f T) intr (mkStore vals) = (mkStore vals, .ok ())
  ∧ ∀ T2 : Nat, T < T2 →
      mainSync (mkRemote f T2) none (mkStore vals)
        = (mkStore (vals ++ valsIn f ((T : Int) + 1) (T2 - T)), .ok ()) := by
  constructor
  · exact mainSync_current f T intr vals hlen
  · intro T2 hT2
    have hg := mainSync_good f T2 (by omega) vals (by omega)
    have h1 : ((T + 1 : Nat) : Int) = (T : Int) + 1 := by push_cast; ring
    have h2 : T2 + 1 - (T + 1) = T2 - T := by omega
    rw [hg, hlen, h1, h2]

/-- Witness for C5_thm: store holding heights 0 and 1, tip unchanged at 1,
then advanced to 3. -/
theorem C5_witness :
    mainSync (mkRemote fconst 1) none (mkStore [5, 6]) = (mkStore [5, 6], .ok ())
  ∧ mainSync (mkRemote fconst 3) none (mkStore [5, 6])
      = (mkStore ([5, 6] ++ valsIn fconst (((1 : Nat) : Int) + 1) (3 - 1)), .ok ()) :=
  ⟨(C5_thm fconst 1 none [5, 6] (by decide)).1,
   (C5_thm fconst 1 none [5, 6] (by decide)).2 3 (by omega)⟩

/-- Claim C6: verify scans every adjacent pair and reports one anomaly,
naming the offending height and the height it followed, for each violation:
on the store with heights 0, 1, 2, 4, 5, 7 it reports exactly the jump from
2 to 4 and the jump from 5 to 7 (it does not stop at the first), and on any
contiguous store it reports none. -/
theorem C6_thm :
    verify_csv_file (some (headerRow :: [entryRow 0 0, entryRow 1 0, entryRow 2 0,
        entryRow 4 0, entryRow 5 0, entryRow 7 0]))
      = .ok [(4, 2), (7, 5)]
  ∧ ∀ vals : List Int, verify_csv_file (mkStore vals) = .ok [] :=
  ⟨by decide, fun vals => verify_mkStore vals⟩

/-- Claim C7, counterexample: on a non-success status, getChainTip
(get_last_block_from_zend) signals no error at all - it returns None as a
success value - and getValueAtHeight terminates the process via exit rather
than raising a RemoteError to its caller. -/
theorem C7_cex :
    get_last_block_from_zend (remoteHttp 500) = .ok none
  ∧ get_block_sprout_chain_value (remoteHttp 500) 0 = .error (.systemExit none) := by
  decide

/-- Claim C7, amended: both calls propagate a transport failure immediately
as the exception of the requests library and raise a key lookup error on a
200 response with a missing payload shape, with no retries; but on a
non-success status getValueAtHeight prints and exits the process, and
getChainTip returns None without signaling, instead of raising RemoteError. -/
theorem C7_thm (h : Int) (s : Nat) :
    get_block_sprout_chain_value remoteTransport h = .error .transportError
  ∧ get_last_block_from_zend remoteTransport = .error .transportError
  ∧ get_block_sprout_chain_value remoteBadPayload h = .error .keyError
  ∧ get_last_block_from_zend remoteBadPayload = .error .keyError
  ∧ get_block_sprout_chain_value (remoteHttp s) h = .error (.systemExit none)
  ∧ get_last_block_from_zend (remoteHttp s) = .ok none :=
  ⟨rfl, rfl, rfl, rfl, rfl, rfl⟩

/-- Claim C8, counterexample: a store whose single data row misses its value
field raises IndexError on load, which main conflates with the empty-store
case: far from failing immediately and leaving the store untouched, the run
treats the corrupt store as empty, fetches from height 0 and appends to the
corrupt file, finishing with success. -/
theorem C8_cex :
    mainSync (mkRemote fconst 1) none corruptShortRowStore
      = (some [headerRow, [renderInt 5], entryRow 0 3, entryRow 1 3], .ok ()) := by
  decide

/-- Claim C8, amended: when a stored row has a field that fails numeric
parsing, the load raises ValueError, main does not catch it, the run dies
before contacting the node, and the store is left exactly as it was; but a
row missing a field raises IndexError instead, which main treats as an
empty store and then proceeds to synchronize from height 0, appending to
the corrupt store. -/
theorem C8_thm (remote : Remote) (intr : Option Nat) (fs : Fs)
    (hcorrupt : get_csv_data fs = .error .valueError) :
    mainSync remote intr fs = (fs, .error .valueError) := by
  simp [mainSync, resolveLast, get_last_block_from_csv, hcorrupt]

/-- Witness for C8_thm at a store whose height field is not numeric. -/
theorem C8_witness :
    get_csv_data corruptBadFieldStore = .error .valueError
  ∧ mainSync (mkRemote fconst 1) none corruptBadFieldStore
      = (corruptBadFieldStore, .error .valueError) :=
  ⟨by decide, C8_thm (mkRemote fconst 1) none corruptBadFieldStore (by decide)⟩

/-- Claim C10: appending any sequence of entries to an initialized empty
store through the append operation of the store (open in append mode, write
one row per entry) and loading afterwards returns exactly that sequence of
height and value lists, in the same order. -/
theorem C10_thm (es : List (Int × Int)) :
    get_csv_data (append_rows (some [headerRow]) es)
      = .ok (es.map Prod.fst, es.map Prod.snd) := by
  show parseRows (es.map (fun p => entryRow p.1 p.2))
      = .ok (es.map Prod.fst, es.map Prod.snd)
  exact parseRows_entryRows es
